import Mathlib

/-!
Verification of the `intent-verification` FFI contract.

The repository ships only `include/intent_verification.h`: the C-compatible
declarations of `CRepositoryAnalysisResult`, `analyze_repository_changes_ffi`,
`free_analysis_result`, `ask_openai` and `free_str`.  The native
implementation behind these declarations is not part of the sources, so the
pipeline (Diff Source, AI Reviewer, FFI Boundary) is modelled here from the
specification, as a shallow embedding.  External collaborators (the git diff
source and the completion service) are modelled as an explicit environment
value supplied to each call.
-/

set_option autoImplicit false

namespace IntentVerification

/-- Modelled from the spec: the Diff Source (section 4.1) fails with a
`RetrievalError` when the repository is unreachable, a commit identifier does
not exist, or the repository cannot be cloned or opened.  The implementation
of the Diff Source is not in the sources. -/
inductive RetrievalError where
  | unreachableRepository
  | commitNotFound
  | cloneFailed
deriving DecidableEq

/-- Modelled from the spec: one changed file as reported by the Diff Source
(path plus enough content to describe the change).  `analyzable` is false for
files that are skipped (for example binary files), which is why
`analyzed_files` may be smaller than `total_files` (section 3).  The Diff
Source implementation is not in the sources. -/
structure DiffFile where
  path : String
  change : String
  analyzable : Bool
deriving DecidableEq

/-- Modelled from the spec: the possible outcomes of one completion-service
call for one file (section 4.2).  The response parses into a good or bad
verdict with a rationale, or cannot be parsed (the raw response is kept), or
the call exhausts its retries, or the credential itself is rejected, which is
fatal for the whole invocation.  The AI Reviewer implementation is not in the
sources. -/
inductive ReviewOutcome where
  | good (rationale : String)
  | bad (rationale : String)
  | unparseable (raw : String)
  | retriesExhausted (diagnostic : String)
  | authRejected
deriving DecidableEq

/-- Modelled from the spec: a per-file verdict record (`FileVerdict`,
section 3): file path, good/bad flag, rationale text, and an error flag set
when the AI call failed for that file. -/
structure FileVerdict where
  path : String
  good : Bool
  rationale : String
  error : Bool
deriving DecidableEq

/-- Modelled from the spec: the environment of one invocation — the Diff
Source answer for the requested repository and commit pair, and the
completion service behaviour on each file's review request.  Both are
external collaborators whose implementation is not in the sources. -/
structure AnalysisEnv where
  diff : Except RetrievalError (List DiffFile)
  review : DiffFile → ReviewOutcome

/-- Modelled from the spec: the C result record `CRepositoryAnalysisResult`
of the header (the only part that is in the sources).  `files_json` is a
`char *` that could in principle be NULL, hence `Option String` here; C `int`
counts are modelled as `Nat`. -/
structure CRepositoryAnalysisResult where
  is_good : Bool
  total_files : Nat
  analyzed_files : Nat
  good_files : Nat
  files_with_issues : Nat
  files_json : Option String
deriving DecidableEq

/-- A nullable C string argument is missing when it is NULL or empty. -/
def isEmptyArg (a : Option String) : Bool :=
  match a with
  | none => true
  | some s => s.isEmpty

/-- Modelled from the spec: how the AI Reviewer turns one completion-service
outcome into a `FileVerdict` (section 4.2): parse failures and retry
exhaustion mark the file as an error case with the raw response or the
diagnostic preserved in the rationale.  `authRejected` never reaches verdict
construction because it aborts the whole call; the value used for it here is
arbitrary. -/
def verdictOf (f : DiffFile) (o : ReviewOutcome) : FileVerdict :=
  match o with
  | .good r => ⟨f.path, true, r, false⟩
  | .bad r => ⟨f.path, false, r, false⟩
  | .unparseable raw => ⟨f.path, false, raw, true⟩
  | .retriesExhausted d => ⟨f.path, false, d, true⟩
  | .authRejected => ⟨f.path, false, "authentication error", true⟩

/-- Modelled from the spec: the files actually submitted to the AI Reviewer
(the non-skipped part of the diff, section 3). -/
def analyzedOf (files : List DiffFile) : List DiffFile :=
  files.filter (fun f => f.analyzable)

/-- Modelled from the spec: the per-file verdicts in the Diff Source's file
order (the sequential reference semantics of section 4.2). -/
def canonicalVerdicts (files : List DiffFile) (review : DiffFile → ReviewOutcome) :
    List FileVerdict :=
  files.map (fun f => verdictOf f (review f))

/-- A crude JSON string quoting for the serializer model. -/
def jsonString (s : String) : String :=
  "\"" ++ s ++ "\""

/-- Modelled from the spec: serialization of one `FileVerdict` as a
self-describing JSON object (sections 3 and 6). -/
def FileVerdict.toJson (v : FileVerdict) : String :=
  "\x7b" ++ jsonString "path" ++ ":" ++ jsonString v.path ++ "," ++
    jsonString "good" ++ ":" ++ (if v.good then "true" else "false") ++ "," ++
    jsonString "rationale" ++ ":" ++ jsonString v.rationale ++ "," ++
    jsonString "error" ++ ":" ++ (if v.error then "true" else "false") ++ "\x7d"

/-- Modelled from the spec: the ordered per-file verdict list serialized as
one JSON array of objects (sections 3 and 6). -/
def serializeVerdicts (vs : List FileVerdict) : String :=
  "[" ++ String.intercalate "," (vs.map FileVerdict.toJson) ++ "]"

/-- Modelled from the spec: whether some review request hits a rejected
credential, which is fatal for the entire operation (section 4.2). -/
def reviewAborts (files : List DiffFile) (review : DiffFile → ReviewOutcome) : Bool :=
  (analyzedOf files).any (fun f =>
    match review f with
    | .authRejected => true
    | _ => false)

/-- Modelled from the spec: aggregation of per-file verdicts into the result
record (sections 3, 4.3 and 8): `good_files` and `files_with_issues`
partition the analyzed files; `is_good` is true iff no file has issues and at
least one file was analyzed; the verdict details are serialized into
`files_json`. -/
def buildResult (files : List DiffFile) (review : DiffFile → ReviewOutcome) :
    CRepositoryAnalysisResult :=
  let verdicts := canonicalVerdicts (analyzedOf files) review
  { is_good := (verdicts.filter (fun v => !v.good)).length == 0 && verdicts.length != 0
    total_files := files.length
    analyzed_files := verdicts.length
    good_files := (verdicts.filter (fun v => v.good)).length
    files_with_issues := (verdicts.filter (fun v => !v.good)).length
    files_json := some (serializeVerdicts verdicts) }

/-- Modelled from the spec: `analyze_repository_changes_ffi` (section 4.3).
Only the declaration is in the sources (`include/intent_verification.h`,
lines 35–39); the body is modelled: a NULL or empty required argument, a Diff
Source retrieval failure, or a rejected credential aborts the call with NULL;
otherwise the per-file verdicts are aggregated into an owned result record,
even when individual reviews fail. -/
def analyze_repository_changes_ffi (api_key repo_url commit1 commit2 : Option String)
    (env : AnalysisEnv) : Option CRepositoryAnalysisResult :=
  if isEmptyArg api_key || isEmptyArg repo_url || isEmptyArg commit1 || isEmptyArg commit2 then
    none
  else
    match env.diff with
    | .error _ => none
    | .ok files =>
      if reviewAborts files env.review then none
      else some (buildResult files env.review)

/-- Modelled from the spec: the completion-service environment seen by one
`ask_openai` call — whether it accepts a given credential, whether the
network request succeeds after its bounded retries, and the answer text.
The completion service is an external collaborator. -/
structure AskEnv where
  credentialAccepted : Option String → Bool
  networkOk : Bool
  answer : String

/-- Modelled from the spec: `ask_openai` (section 4.3).  Only the declaration
is in the sources (`include/intent_verification.h`, line 55); the body is
modelled: NULL on any failure (empty prompt, rejected credential, network
failure after retries), otherwise the owned answer string. -/
def ask_openai (prompt api_key : Option String) (env : AskEnv) : Option String :=
  if isEmptyArg prompt then none
  else if !env.credentialAccepted api_key then none
  else if !env.networkOk then none
  else some env.answer

/-- Modelled from the spec: a parallel execution of the per-file reviews
(sections 4.2 and 5).  `schedule` is the order in which the parallel workers
complete, given as a permutation of the file indices; each completion yields
the original index paired with the file's verdict. -/
def completeInOrder (files : List DiffFile) (review : DiffFile → ReviewOutcome)
    (schedule : List Nat) : List (Nat × FileVerdict) :=
  schedule.filterMap (fun i => (files[i]?).map (fun f => (i, verdictOf f (review f))))

/-- Modelled from the spec: before returning, verdict ordering is restored to
match the original file ordering from the Diff Source (section 4.2): for each
original index, the completed verdict carrying that index is looked up. -/
def restoreOrder (n : Nat) (completed : List (Nat × FileVerdict)) : List FileVerdict :=
  (List.range n).filterMap (fun i => (completed.find? (fun p => p.1 == i)).map (fun p => p.2))

/-- Modelled from the spec: the whole parallel review of one file list —
reviews complete in `schedule` order, then the verdicts are put back into
Diff Source order. -/
def runParallel (files : List DiffFile) (review : DiffFile → ReviewOutcome)
    (schedule : List Nat) : List FileVerdict :=
  restoreOrder files.length (completeInOrder files review schedule)

/-- Modelled from the spec: the heap of live allocations handed out by this
library, for the release operations.  Addresses of live analysis results and
live answer strings. -/
structure Heap where
  results : List Nat
  strings : List Nat
deriving DecidableEq

/-- Modelled from the spec: `free_analysis_result` (section 4.3).  Only the
declaration is in the sources (`include/intent_verification.h`, line 46); the
body is modelled: releasing NULL is a no-op, releasing a live result removes
it from the heap. -/
def free_analysis_result (ptr : Option Nat) (h : Heap) : Heap :=
  match ptr with
  | none => h
  | some a => { h with results := h.results.erase a }

/-- Modelled from the spec: `free_str` (section 4.3).  Only the declaration
is in the sources (`include/intent_verification.h`, line 62); the body is
modelled: releasing NULL is a no-op, releasing a live string removes it from
the heap. -/
def free_str (ptr : Option Nat) (h : Heap) : Heap :=
  match ptr with
  | none => h
  | some a => { h with strings := h.strings.erase a }

/-! ### Helper lemmas -/

theorem length_filter_good_add_not (l : List FileVerdict) :
    (l.filter (fun v => v.good)).length + (l.filter (fun v => !v.good)).length = l.length := by
  induction l with
  | nil => rfl
  | cons a t ih =>
    cases h : a.good <;> simp [List.filter_cons, h] <;> omega

theorem analyze_some_cases {k u c1 c2 : Option String} {env : AnalysisEnv}
    {r : CRepositoryAnalysisResult}
    (h : analyze_repository_changes_ffi k u c1 c2 env = some r) :
    ∃ files, env.diff = .ok files ∧ reviewAborts files env.review = false ∧
      r = buildResult files env.review := by
  unfold analyze_repository_changes_ffi at h
  split at h
  · exact absurd h (by simp)
  · split at h
    · exact absurd h (by simp)
    · rename_i files heq
      split at h
      · exact absurd h (by simp)
      · rename_i habort
        exact ⟨files, heq, by simpa using habort, (Option.some.inj h).symm⟩

theorem buildResult_good_files (files : List DiffFile) (review : DiffFile → ReviewOutcome) :
    (buildResult files review).good_files
      = ((canonicalVerdicts (analyzedOf files) review).filter (fun v => v.good)).length := rfl

theorem buildResult_issues (files : List DiffFile) (review : DiffFile → ReviewOutcome) :
    (buildResult files review).files_with_issues
      = ((canonicalVerdicts (analyzedOf files) review).filter (fun v => !v.good)).length := rfl

theorem buildResult_analyzed (files : List DiffFile) (review : DiffFile → ReviewOutcome) :
    (buildResult files review).analyzed_files
      = (canonicalVerdicts (analyzedOf files) review).length := rfl

theorem buildResult_is_good_eq (files : List DiffFile) (review : DiffFile → ReviewOutcome) :
    (buildResult files review).is_good
      = (((canonicalVerdicts (analyzedOf files) review).filter (fun v => !v.good)).length == 0
          && (canonicalVerdicts (analyzedOf files) review).length != 0) := rfl

/-! ### Concrete witness environments -/

def fileA : DiffFile := ⟨"src/a.c", "diff of a", true⟩

def fileB : DiffFile := ⟨"src/b.c", "diff of b", true⟩

def fileBin : DiffFile := ⟨"logo.png", "binary", false⟩

def envGood : AnalysisEnv := ⟨.ok [fileA, fileB, fileBin], fun _ => .good "looks fine"⟩

def rGood : CRepositoryAnalysisResult := buildResult [fileA, fileB, fileBin] envGood.review

/-! ### Claims -/

/-- Claim C2: for every non-NULL `CRepositoryAnalysisResult` returned by
`analyze_repository_changes_ffi`, the counts satisfy
`good_files + files_with_issues == analyzed_files` and
`analyzed_files <= total_files`. -/
theorem analyze_counts_partition (k u c1 c2 : Option String) (env : AnalysisEnv)
    (r : CRepositoryAnalysisResult)
    (h : analyze_repository_changes_ffi k u c1 c2 env = some r) :
    r.good_files + r.files_with_issues = r.analyzed_files
      ∧ r.analyzed_files ≤ r.total_files := by
  obtain ⟨files, hdiff, habort, hr⟩ := analyze_some_cases h
  subst hr
  constructor
  · rw [buildResult_good_files, buildResult_issues, buildResult_analyzed]
    exact length_filter_good_add_not _
  · rw [buildResult_analyzed]
    show (canonicalVerdicts (analyzedOf files) env.review).length ≤ files.length
    rw [canonicalVerdicts, List.length_map]
    exact List.length_filter_le _ _

theorem analyze_counts_partition_witness :
    analyze_repository_changes_ffi (some "key") (some "url") (some "c1") (some "c2") envGood
        = some rGood
      ∧ rGood.good_files + rGood.files_with_issues = rGood.analyzed_files
      ∧ rGood.analyzed_files ≤ rGood.total_files :=
  ⟨rfl, analyze_counts_partition (some "key") (some "url") (some "c1") (some "c2")
    envGood rGood rfl⟩

/-- Claim C3: for every non-NULL `CRepositoryAnalysisResult` returned by
`analyze_repository_changes_ffi`, `is_good` is true if and only if
`files_with_issues == 0` and `analyzed_files > 0`. -/
theorem analyze_is_good_iff_no_issues (k u c1 c2 : Option String) (env : AnalysisEnv)
    (r : CRepositoryAnalysisResult)
    (h : analyze_repository_changes_ffi k u c1 c2 env = some r) :
    r.is_good = true ↔ r.files_with_issues = 0 ∧ 0 < r.analyzed_files := by
  obtain ⟨files, hdiff, habort, hr⟩ := analyze_some_cases h
  subst hr
  rw [buildResult_is_good_eq, buildResult_issues, buildResult_analyzed]
  simp [Nat.pos_iff_ne_zero]

theorem analyze_is_good_iff_no_issues_witness :
    analyze_repository_changes_ffi (some "key") (some "url") (some "c1") (some "c2") envGood
        = some rGood
      ∧ (rGood.is_good = true ↔ rGood.files_with_issues = 0 ∧ 0 < rGood.analyzed_files) :=
  ⟨rfl, analyze_is_good_iff_no_issues (some "key") (some "url") (some "c1") (some "c2")
    envGood rGood rfl⟩

/-- Modelled from the spec: the invocation-level fatal failures (section 7,
`InvocationError`): missing or empty required argument, repository
unreachable or commit not found (a Diff Source retrieval failure), or the
credential rejected by the completion service. -/
def invocationFatal (k u c1 c2 : Option String) (env : AnalysisEnv) : Prop :=
  isEmptyArg k = true ∨ isEmptyArg u = true ∨ isEmptyArg c1 = true ∨ isEmptyArg c2 = true
    ∨ (∃ e, env.diff = .error e)
    ∨ (∃ files, env.diff = .ok files ∧ reviewAborts files env.review = true)

/-- Claim C1: `analyze_repository_changes_ffi` returns NULL exactly on the
invocation-level fatal failures (NULL or empty required argument,
unreachable repository or invalid commit, rejected credential); every other
invocation returns a populated, caller-owned result record (in particular
its `files_json` detail string is present), even when some per-file AI
reviews fail. -/
theorem analyze_null_iff_invocation_fatal (k u c1 c2 : Option String) (env : AnalysisEnv) :
    (analyze_repository_changes_ffi k u c1 c2 env = none ↔ invocationFatal k u c1 c2 env)
      ∧ (∀ r, analyze_repository_changes_ffi k u c1 c2 env = some r →
          r.files_json.isSome = true) := by
  constructor
  · unfold analyze_repository_changes_ffi invocationFatal
    split
    · rename_i hargs
      simp only [Bool.or_eq_true] at hargs
      simp only [true_iff]
      rcases hargs with ((hk | hu) | h1) | h2
      · exact Or.inl hk
      · exact Or.inr (Or.inl hu)
      · exact Or.inr (Or.inr (Or.inl h1))
      · exact Or.inr (Or.inr (Or.inr (Or.inl h2)))
    · rename_i hargs
      simp only [Bool.or_eq_true, not_or] at hargs
      obtain ⟨⟨⟨hk, hu⟩, h1⟩, h2⟩ := hargs
      split
      · rename_i e heq
        simp only [true_iff]
        exact Or.inr (Or.inr (Or.inr (Or.inr (Or.inl ⟨e, heq⟩))))
      · rename_i files heq
        split
        · rename_i habort
          simp only [true_iff]
          exact Or.inr (Or.inr (Or.inr (Or.inr (Or.inr ⟨files, heq, habort⟩))))
        · rename_i habort
          simp only [reduceCtorEq, false_iff, heq]
          intro hfatal
          rcases hfatal with hk' | hu' | h1' | h2' | ⟨e, he⟩ | ⟨files', hf, ha⟩
          · exact hk hk'
          · exact hu hu'
          · exact h1 h1'
          · exact h2 h2'
          · exact he
          · obtain rfl : files = files' := by injection hf
            exact habort ha
  · intro r h
    obtain ⟨files, hdiff, habort, hr⟩ := analyze_some_cases h
    subst hr
    rfl

theorem analyze_null_iff_invocation_fatal_witness :
    analyze_repository_changes_ffi none (some "url") (some "c1") (some "c2") envGood = none
      ∧ rGood.files_json.isSome = true :=
  ⟨(analyze_null_iff_invocation_fatal none (some "url") (some "c1") (some "c2") envGood).1.mpr
      (Or.inl rfl),
   (analyze_null_iff_invocation_fatal (some "key") (some "url") (some "c1") (some "c2")
      envGood).2 rGood rfl⟩

/-- Environment whose diff is empty: no changed files at all. -/
def envEmpty : AnalysisEnv := ⟨.ok [], fun _ => .good "looks fine"⟩

def rEmpty : CRepositoryAnalysisResult := buildResult [] envEmpty.review

/-- Claim C4, counterexample: on a diff with no files the call succeeds,
every analyzed file is (vacuously) judged good, yet `is_good` is false —
so `is_good` is not equivalent to "every analyzed file is judged good"
when `analyzed_files == 0`. -/
theorem analyze_vacuous_all_good_counterexample :
    analyze_repository_changes_ffi (some "key") (some "url") (some "c1") (some "c2") envEmpty
        = some rEmpty
      ∧ (∀ v ∈ canonicalVerdicts (analyzedOf []) envEmpty.review, v.good = true)
      ∧ rEmpty.analyzed_files = 0
      ∧ rEmpty.is_good = false := by
  refine ⟨rfl, ?_, rfl, rfl⟩
  intro v hv
  simp [canonicalVerdicts, analyzedOf] at hv

/-- Claim C4, amended: for every non-NULL result, `is_good` is true if and
only if every analyzed file is judged good AND at least one file was
analyzed; when `analyzed_files == 0` the flag is false, not vacuously
true. -/
theorem analyze_is_good_iff_all_good_and_nonempty (k u c1 c2 : Option String)
    (env : AnalysisEnv) (files : List DiffFile) (r : CRepositoryAnalysisResult)
    (hdiff : env.diff = .ok files)
    (h : analyze_repository_changes_ffi k u c1 c2 env = some r) :
    r.is_good = true ↔
      ((∀ v ∈ canonicalVerdicts (analyzedOf files) env.review, v.good = true)
        ∧ 0 < r.analyzed_files) := by
  obtain ⟨files', hdiff', habort, hr⟩ := analyze_some_cases h
  rw [hdiff] at hdiff'
  obtain rfl : files = files' := by injection hdiff'
  subst hr
  rw [buildResult_is_good_eq, buildResult_analyzed]
  constructor
  · intro hg
    simp only [Bool.and_eq_true, beq_iff_eq, bne_iff_ne, ne_eq] at hg
    obtain ⟨hz, hn⟩ := hg
    refine ⟨?_, Nat.pos_of_ne_zero hn⟩
    intro v hv
    have hnil : (canonicalVerdicts (analyzedOf files) env.review).filter (fun v => !v.good)
        = [] := List.length_eq_zero.mp hz
    by_contra hb
    simp only [Bool.not_eq_true] at hb
    have hvmem : v ∈ (canonicalVerdicts (analyzedOf files) env.review).filter
        (fun v => !v.good) := List.mem_filter.mpr ⟨hv, by simp [hb]⟩
    rw [hnil] at hvmem
    exact absurd hvmem (List.not_mem_nil v)
  · rintro ⟨hall, hpos⟩
    simp only [Bool.and_eq_true, beq_iff_eq, bne_iff_ne, ne_eq]
    refine ⟨?_, Nat.pos_iff_ne_zero.mp hpos⟩
    rw [List.length_eq_zero, List.filter_eq_nil_iff]
    intro v hv
    simp [hall v hv]

theorem analyze_is_good_iff_all_good_and_nonempty_witness :
    envGood.diff = .ok [fileA, fileB, fileBin]
      ∧ analyze_repository_changes_ffi (some "key") (some "url") (some "c1") (some "c2") envGood
          = some rGood
      ∧ (rGood.is_good = true ↔
          ((∀ v ∈ canonicalVerdicts (analyzedOf [fileA, fileB, fileBin]) envGood.review,
              v.good = true)
            ∧ 0 < rGood.analyzed_files)) :=
  ⟨rfl, rfl, analyze_is_good_iff_all_good_and_nonempty (some "key") (some "url") (some "c1")
    (some "c2") envGood [fileA, fileB, fileBin] rGood rfl rfl⟩

/-- Environment whose completion service is completely unreachable: every
review exhausts its retries. -/
def envDown : AnalysisEnv :=
  ⟨.ok [fileA, fileB, fileBin], fun _ => .retriesExhausted "request timed out"⟩

/-- Environment whose credential is rejected by the completion service. -/
def envAuthFail : AnalysisEnv := ⟨.ok [fileA, fileB, fileBin], fun _ => .authRejected⟩

/-- Claim C5: when the AI call for every analyzed file fails by exhausting
its retries, `analyze_repository_changes_ffi` still returns a well-formed
result with `is_good = false` and `good_files = 0`; but when the credential
is rejected, the whole call aborts and returns NULL. -/
theorem analyze_service_down_vs_auth (k u c1 c2 : Option String) (env : AnalysisEnv)
    (files : List DiffFile)
    (hargs : (isEmptyArg k || isEmptyArg u || isEmptyArg c1 || isEmptyArg c2) = false)
    (hdiff : env.diff = .ok files) :
    ((∀ f ∈ analyzedOf files, ∃ d, env.review f = .retriesExhausted d) →
      ∃ r, analyze_repository_changes_ffi k u c1 c2 env = some r
        ∧ r.good_files = 0 ∧ r.is_good = false)
      ∧ ((∃ f ∈ analyzedOf files, env.review f = .authRejected) →
        analyze_repository_changes_ffi k u c1 c2 env = none) := by
  constructor
  · intro hall
    have habort : reviewAborts files env.review = false := by
      rw [reviewAborts, List.any_eq_false]
      intro f hf
      obtain ⟨d, hd⟩ := hall f hf
      simp [hd]
    have hgoodfalse : ∀ v ∈ canonicalVerdicts (analyzedOf files) env.review,
        v.good = false := by
      intro v hv
      rw [canonicalVerdicts, List.mem_map] at hv
      obtain ⟨f, hf, rfl⟩ := hv
      obtain ⟨d, hd⟩ := hall f hf
      simp [hd, verdictOf]
    refine ⟨buildResult files env.review, ?_, ?_, ?_⟩
    · simp [analyze_repository_changes_ffi, hargs, hdiff, habort]
    · rw [buildResult_good_files, List.length_eq_zero, List.filter_eq_nil_iff]
      intro v hv
      simp [hgoodfalse v hv]
    · rw [buildResult_is_good_eq]
      have hfid : (canonicalVerdicts (analyzedOf files) env.review).filter
          (fun v => !v.good) = canonicalVerdicts (analyzedOf files) env.review := by
        rw [List.filter_eq_self]
        intro v hv
        simp [hgoodfalse v hv]
      rw [hfid]
      cases hlen : (canonicalVerdicts (analyzedOf files) env.review).length <;> simp [hlen]
  · intro hex
    have habort : reviewAborts files env.review = true := by
      rw [reviewAborts, List.any_eq_true]
      obtain ⟨f, hf, hauth⟩ := hex
      exact ⟨f, hf, by simp [hauth]⟩
    simp [analyze_repository_changes_ffi, hargs, hdiff, habort]

theorem analyze_service_down_vs_auth_witness :
    (isEmptyArg (some "key") || isEmptyArg (some "url") || isEmptyArg (some "c1")
        || isEmptyArg (some "c2")) = false
      ∧ envDown.diff = .ok [fileA, fileB, fileBin]
      ∧ (∃ r, analyze_repository_changes_ffi (some "key") (some "url") (some "c1") (some "c2")
            envDown = some r ∧ r.good_files = 0 ∧ r.is_good = false)
      ∧ analyze_repository_changes_ffi (some "key") (some "url") (some "c1") (some "c2")
          envAuthFail = none :=
  ⟨rfl, rfl,
   (analyze_service_down_vs_auth (some "key") (some "url") (some "c1") (some "c2") envDown
      [fileA, fileB, fileBin] rfl rfl).1
     (fun f _ => ⟨"request timed out", rfl⟩),
   (analyze_service_down_vs_auth (some "key") (some "url") (some "c1") (some "c2") envAuthFail
      [fileA, fileB, fileBin] rfl rfl).2
     ⟨fileA, by decide, rfl⟩⟩

/-- Claim C6: a file whose completion-service response cannot be parsed is
recorded as an error case with the raw response preserved in its rationale,
it is counted in `files_with_issues`, and the overall call still completes
with a populated result. -/
theorem analyze_unparseable_recorded (k u c1 c2 : Option String) (env : AnalysisEnv)
    (files : List DiffFile) (f : DiffFile) (raw : String)
    (hargs : (isEmptyArg k || isEmptyArg u || isEmptyArg c1 || isEmptyArg c2) = false)
    (hdiff : env.diff = .ok files)
    (habort : reviewAborts files env.review = false)
    (hf : f ∈ analyzedOf files)
    (hraw : env.review f = .unparseable raw) :
    ∃ r, analyze_repository_changes_ffi k u c1 c2 env = some r
      ∧ verdictOf f (env.review f) = ⟨f.path, false, raw, true⟩
      ∧ verdictOf f (env.review f)
          ∈ (canonicalVerdicts (analyzedOf files) env.review).filter (fun v => !v.good)
      ∧ r.files_with_issues
          = ((canonicalVerdicts (analyzedOf files) env.review).filter
              (fun v => !v.good)).length
      ∧ 0 < r.files_with_issues := by
  have hv : verdictOf f (env.review f) = ⟨f.path, false, raw, true⟩ := by
    rw [hraw]; rfl
  have hmem : verdictOf f (env.review f)
      ∈ (canonicalVerdicts (analyzedOf files) env.review).filter (fun v => !v.good) := by
    refine List.mem_filter.mpr ⟨?_, ?_⟩
    · rw [canonicalVerdicts, List.mem_map]
      exact ⟨f, hf, rfl⟩
    · rw [hv]; rfl
  refine ⟨buildResult files env.review, ?_, hv, hmem, rfl, ?_⟩
  · simp [analyze_repository_changes_ffi, hargs, hdiff, habort]
  · rw [buildResult_issues]
    exact List.length_pos.mpr (List.ne_nil_of_mem hmem)

/-- Environment where one file's response fails to parse and the others are
judged good. -/
def envUnparseable : AnalysisEnv :=
  ⟨.ok [fileA, fileB, fileBin], fun f =>
    if f.path == "src/b.c" then .unparseable "weird output" else .good "looks fine"⟩

theorem analyze_unparseable_recorded_witness :
    (isEmptyArg (some "key") || isEmptyArg (some "url") || isEmptyArg (some "c1")
        || isEmptyArg (some "c2")) = false
      ∧ envUnparseable.diff = .ok [fileA, fileB, fileBin]
      ∧ reviewAborts [fileA, fileB, fileBin] envUnparseable.review = false
      ∧ fileB ∈ analyzedOf [fileA, fileB, fileBin]
      ∧ envUnparseable.review fileB = .unparseable "weird output"
      ∧ (∃ r, analyze_repository_changes_ffi (some "key") (some "url") (some "c1") (some "c2")
            envUnparseable = some r
          ∧ verdictOf fileB (envUnparseable.review fileB) = ⟨fileB.path, false, "weird output", true⟩
          ∧ verdictOf fileB (envUnparseable.review fileB)
              ∈ (canonicalVerdicts (analyzedOf [fileA, fileB, fileBin])
                  envUnparseable.review).filter (fun v => !v.good)
          ∧ r.files_with_issues
              = ((canonicalVerdicts (analyzedOf [fileA, fileB, fileBin])
                  envUnparseable.review).filter (fun v => !v.good)).length
          ∧ 0 < r.files_with_issues) :=
  ⟨rfl, rfl, by decide, by decide, rfl,
   analyze_unparseable_recorded (some "key") (some "url") (some "c1") (some "c2")
     envUnparseable [fileA, fileB, fileBin] fileB "weird output" rfl rfl (by decide)
     (by decide) rfl⟩

theorem find_completeInOrder (files : List DiffFile) (review : DiffFile → ReviewOutcome)
    (schedule : List Nat) (i : Nat) (hmem : i ∈ schedule) (hi : i < files.length) :
    (completeInOrder files review schedule).find? (fun p => p.1 == i)
      = (files[i]?).map (fun f => (i, verdictOf f (review f))) := by
  induction schedule with
  | nil => cases hmem
  | cons j t ih =>
    rw [completeInOrder, List.filterMap_cons]
    cases hj : files[j]? with
    | none =>
      rcases List.mem_cons.mp hmem with rfl | hmem'
      · rw [List.getElem?_eq_none_iff] at hj
        omega
      · exact ih hmem'
    | some fj =>
      simp only [Option.map_some']
      rw [List.find?_cons]
      cases hji : ((j, verdictOf fj (review fj)).1 == i) with
      | true =>
        obtain rfl : j = i := by simpa using hji
        rw [hj]
        rfl
      | false =>
        rcases List.mem_cons.mp hmem with rfl | hmem'
        · simp at hji
        · exact ih hmem'

theorem filterMap_congr_mem {α β : Type} {l : List α} {f g : α → Option β}
    (h : ∀ a ∈ l, f a = g a) : l.filterMap f = l.filterMap g := by
  induction l with
  | nil => rfl
  | cons a t ih =>
    rw [List.filterMap_cons, List.filterMap_cons, h a (List.mem_cons_self a t),
      ih (fun x hx => h x (List.mem_cons_of_mem a hx))]

theorem filterMap_getElem_range {α : Type} (l : List α) :
    (List.range l.length).filterMap (fun i => l[i]?) = l := by
  induction l with
  | nil => rfl
  | cons a t ih =>
    rw [List.length_cons, List.range_succ_eq_map, List.filterMap_cons]
    have h0 : (a :: t)[(0 : Nat)]? = some a := by simp
    rw [h0, List.filterMap_map]
    have hcomp : ∀ i ∈ List.range t.length,
        ((fun i => (a :: t)[i]?) ∘ Nat.succ) i = t[i]? := by
      intro i _
      simp [Function.comp]
    rw [filterMap_congr_mem hcomp, ih]

/-- Modelled from the spec: a parallel run over any completion schedule that
covers all files yields exactly the sequential verdicts in Diff Source
order (section 4.2's ordering contract). -/
theorem runParallel_eq_canonical (files : List DiffFile) (review : DiffFile → ReviewOutcome)
    (schedule : List Nat) (hperm : schedule.Perm (List.range files.length)) :
    runParallel files review schedule = canonicalVerdicts files review := by
  rw [runParallel, restoreOrder]
  have hcongr : ∀ i ∈ List.range files.length,
      ((completeInOrder files review schedule).find? (fun p => p.1 == i)).map (fun p => p.2)
        = (canonicalVerdicts files review)[i]? := by
    intro i hi
    rw [List.mem_range] at hi
    have hmem : i ∈ schedule := hperm.mem_iff.mpr (List.mem_range.mpr hi)
    rw [find_completeInOrder files review schedule i hmem hi, canonicalVerdicts,
      List.getElem?_map]
    cases hg : files[i]? <;> simp
  rw [filterMap_congr_mem hcongr]
  have hlen : files.length = (canonicalVerdicts files review).length := by
    rw [canonicalVerdicts, List.length_map]
  rw [hlen, filterMap_getElem_range]

/-- Claim C7: for every successful call, the per-file verdict order in the
serialized `files_json` equals the Diff Source's file order, and is the same
for any two completion schedules of the parallel per-file AI calls. -/
theorem analyze_order_independent_of_schedule (k u c1 c2 : Option String)
    (env : AnalysisEnv) (files : List DiffFile) (r : CRepositoryAnalysisResult)
    (s1 s2 : List Nat)
    (hdiff : env.diff = .ok files)
    (h : analyze_repository_changes_ffi k u c1 c2 env = some r)
    (h1 : s1.Perm (List.range (analyzedOf files).length))
    (h2 : s2.Perm (List.range (analyzedOf files).length)) :
    runParallel (analyzedOf files) env.review s1
        = canonicalVerdicts (analyzedOf files) env.review
      ∧ runParallel (analyzedOf files) env.review s1
        = runParallel (analyzedOf files) env.review s2
      ∧ r.files_json
        = some (serializeVerdicts (runParallel (analyzedOf files) env.review s1)) := by
  obtain ⟨files', hdiff', habort, hr⟩ := analyze_some_cases h
  rw [hdiff] at hdiff'
  obtain rfl : files = files' := by injection hdiff'
  have e1 := runParallel_eq_canonical (analyzedOf files) env.review s1 h1
  have e2 := runParallel_eq_canonical (analyzedOf files) env.review s2 h2
  subst hr
  exact ⟨e1, e1.trans e2.symm, by rw [e1]; rfl⟩

theorem analyze_order_independent_of_schedule_witness :
    envGood.diff = .ok [fileA, fileB, fileBin]
      ∧ analyze_repository_changes_ffi (some "key") (some "url") (some "c1") (some "c2")
          envGood = some rGood
      ∧ [1, 0].Perm (List.range (analyzedOf [fileA, fileB, fileBin]).length)
      ∧ [0, 1].Perm (List.range (analyzedOf [fileA, fileB, fileBin]).length)
      ∧ (runParallel (analyzedOf [fileA, fileB, fileBin]) envGood.review [1, 0]
            = canonicalVerdicts (analyzedOf [fileA, fileB, fileBin]) envGood.review
          ∧ runParallel (analyzedOf [fileA, fileB, fileBin]) envGood.review [1, 0]
            = runParallel (analyzedOf [fileA, fileB, fileBin]) envGood.review [0, 1]
          ∧ rGood.files_json
            = some (serializeVerdicts
                (runParallel (analyzedOf [fileA, fileB, fileBin]) envGood.review [1, 0]))) :=
  ⟨rfl, rfl, by decide, by decide,
   analyze_order_independent_of_schedule (some "key") (some "url") (some "c1") (some "c2")
     envGood [fileA, fileB, fileBin] rGood [1, 0] [0, 1] rfl rfl (by decide) (by decide)⟩

/-- Claim C8: `ask_openai` returns NULL exactly on failure (empty or NULL
prompt, rejected credential, network failure after retries are exhausted);
otherwise it returns the completion service's answer as an owned string. -/
theorem ask_openai_null_iff_failure (p k : Option String) (env : AskEnv) :
    (ask_openai p k env = none ↔
        (isEmptyArg p = true ∨ env.credentialAccepted k = false ∨ env.networkOk = false))
      ∧ (isEmptyArg p = false → env.credentialAccepted k = true → env.networkOk = true →
          ask_openai p k env = some env.answer) := by
  constructor
  · unfold ask_openai
    cases hp : isEmptyArg p <;> cases hc : env.credentialAccepted k
      <;> cases hn : env.networkOk <;> simp
  · intro hp hc hn
    unfold ask_openai
    rw [hp, hc, hn]
    rfl

/-- A completion-service environment that accepts every credential and whose
network is up. -/
def askEnvOk : AskEnv := ⟨fun _ => true, true, "the answer"⟩

theorem ask_openai_null_iff_failure_witness :
    (ask_openai (some "") (some "key") askEnvOk = none)
      ∧ isEmptyArg (some "hi") = false
      ∧ askEnvOk.credentialAccepted (some "key") = true
      ∧ askEnvOk.networkOk = true
      ∧ ask_openai (some "hi") (some "key") askEnvOk = some askEnvOk.answer :=
  ⟨(ask_openai_null_iff_failure (some "") (some "key") askEnvOk).1.mpr (Or.inl rfl),
   rfl, rfl, rfl,
   (ask_openai_null_iff_failure (some "hi") (some "key") askEnvOk).2 rfl rfl rfl⟩

/-- Claim C9: releasing a NULL result pointer and releasing a NULL string
pointer are both no-ops: they never fail and leave the allocation state
unchanged. -/
theorem free_null_noop (h : Heap) :
    free_analysis_result none h = h ∧ free_str none h = h :=
  ⟨rfl, rfl⟩

/-- Claim C10: every non-NULL result of `analyze_repository_changes_ffi`
carries a present (non-NULL) `files_json` string, and that string is exactly
the JSON serialization of the ordered per-file verdict list. -/
theorem analyze_files_json_present (k u c1 c2 : Option String) (env : AnalysisEnv)
    (r : CRepositoryAnalysisResult)
    (h : analyze_repository_changes_ffi k u c1 c2 env = some r) :
    ∃ files, env.diff = .ok files
      ∧ r.files_json
        = some (serializeVerdicts (canonicalVerdicts (analyzedOf files) env.review)) := by
  obtain ⟨files, hdiff, habort, hr⟩ := analyze_some_cases h
  subst hr
  exact ⟨files, hdiff, rfl⟩

theorem analyze_files_json_present_witness :
    analyze_repository_changes_ffi (some "key") (some "url") (some "c1") (some "c2") envGood
        = some rGood
      ∧ ∃ files, envGood.diff = .ok files
          ∧ rGood.files_json
            = some (serializeVerdicts (canonicalVerdicts (analyzedOf files) envGood.review)) :=
  ⟨rfl, analyze_files_json_present (some "key") (some "url") (some "c1") (some "c2")
    envGood rGood rfl⟩

end IntentVerification
